import Mathlib

/-!
Verification development for the hyperliquid-go signing core
(`hyperliquid/utils`, the encode → hash → sign pipeline).

Bytes are modelled as `Nat` values below 256, byte streams as `List Nat`.
Go `uint64` arithmetic is modelled with `Nat` together with the masks the
source itself applies (`&&& 0xff`, shifts), or with explicit `% 2^64`.
Fallible Go functions (returning `(T, error)`) are modelled with
`Except String T`, carrying the source's error message where it is a
fixed string.
-/

set_option maxRecDepth 1000000

namespace HL

/-- One 64-bit lane mask. -/
def mask64 : Nat := 2 ^ 64 - 1

/-- Rotate a 64-bit lane left by `n` (for `x < 2^64`, `0 < n < 64`). -/
def rotl64 (x n : Nat) : Nat :=
  (((x <<< n) &&& mask64) ||| (x >>> (64 - n)))

/-! ## Keccak-256

Model of the `golang.org/x/crypto/sha3` legacy Keccak-256 dependency used by
`ActionHash` and (via go-ethereum `crypto.Keccak256Hash`) by `SignInner`:
the Keccak-f[1600] permutation, sponge with rate 136 bytes, and the legacy
`0x01` padding domain byte (NewLegacyKeccak256, not the SHA3 `0x06` one).
-/

/-- The 24 Keccak-f[1600] round constants. -/
def keccakRC : List Nat :=
  [0x1, 0x8082, 0x800000000000808a, 0x8000000080008000,
   0x808b, 0x80000001, 0x8000000080008081, 0x8000000000008009,
   0x8a, 0x88, 0x80008009, 0x8000000a,
   0x8000808b, 0x800000000000008b, 0x8000000000008089, 0x8000000000008003,
   0x8000000000008002, 0x8000000000000080, 0x800a, 0x800000008000000a,
   0x8000000080008081, 0x8000000000008080, 0x80000001, 0x8000000080008008]

/-- The ρ rotation offsets, indexed by `x + 5*y`, one row of the 5×5 state
per list. -/
def keccakRot : List Nat :=
  [0, 1, 62, 28, 27] ++ [36, 44, 6, 55, 20] ++ [3, 10, 43, 25, 39] ++
    [41, 45, 15, 21, 8] ++ [18, 2, 61, 56, 14]

/-- Lane index in the 5×5 state. -/
def lidx (x y : Nat) : Nat := x + 5 * y

/-- θ step. -/
def theta (a : List Nat) : List Nat :=
  let c := (List.range 5).map fun x =>
    a.getD (lidx x 0) 0 ^^^ a.getD (lidx x 1) 0 ^^^ a.getD (lidx x 2) 0 ^^^
      a.getD (lidx x 3) 0 ^^^ a.getD (lidx x 4) 0
  let d := (List.range 5).map fun x =>
    c.getD ((x + 4) % 5) 0 ^^^ rotl64 (c.getD ((x + 1) % 5) 0) 1
  (List.range 25).map fun i => a.getD i 0 ^^^ d.getD (i % 5) 0

/-- Combined ρ and π steps: lane `(x', y')` of the result is lane
`((x' + 3 y') % 5, x')` of the input rotated by its ρ offset. -/
def rhoPi (a : List Nat) : List Nat :=
  (List.range 25).map fun i =>
    let xq := i % 5
    let yq := i / 5
    let xs := (xq + 3 * yq) % 5
    let r := keccakRot.getD (lidx xs xq) 0
    let v := a.getD (lidx xs xq) 0
    if r = 0 then v else rotl64 v r

/-- χ step. -/
def chi (a : List Nat) : List Nat :=
  (List.range 25).map fun i =>
    let x := i % 5
    let y := i / 5
    a.getD (lidx x y) 0 ^^^
      ((a.getD (lidx ((x + 1) % 5) y) 0 ^^^ mask64) &&& a.getD (lidx ((x + 2) % 5) y) 0)

/-- One Keccak-f round with round constant `rc`. -/
def keccakRound (a : List Nat) (rc : Nat) : List Nat :=
  let b := chi (rhoPi (theta a))
  (b.getD 0 0 ^^^ rc) :: b.drop 1

/-- The full Keccak-f[1600] permutation: 24 rounds. -/
def keccakF (a : List Nat) : List Nat :=
  keccakRC.foldl keccakRound a

/-- Little-endian read of 8 bytes into one 64-bit lane. -/
def bytesToLane : List Nat → Nat
  | [] => 0
  | b :: bs => b + 256 * bytesToLane bs

/-- Chunk splitting worker, structurally recursive on a fuel bound. -/
def chunksGo (k : Nat) : Nat → List Nat → List (List Nat)
  | _, [] => []
  | 0, l => [l]
  | n + 1, l => l.take k :: chunksGo k n (l.drop k)

/-- Split a list into chunks of `k` elements (`k > 0`). -/
def chunks (k : Nat) (l : List Nat) : List (List Nat) :=
  chunksGo k l.length l

/-- Little-endian write of one 64-bit lane as 8 bytes. -/
def laneToBytes (v : Nat) : List Nat :=
  (List.range 8).map fun i => (v >>> (8 * i)) &&& 0xff

/-- XOR a (≤ 17 lane) block into the front of the state. -/
def absorbBlock (st block : List Nat) : List Nat :=
  keccakF ((List.range 25).map fun i => st.getD i 0 ^^^ block.getD i 0)

/-- Multi-rate padding with domain separation byte `ds` up to a multiple of
`rate` bytes, final bit `0x80` folded into the last byte. -/
def keccakPad (rate : Nat) (m : List Nat) : List Nat :=
  let padLen := rate - m.length % rate
  if padLen = 1 then m ++ [0x81]
  else m ++ 0x01 :: (List.replicate (padLen - 2) 0) ++ [0x80]

/-- Keccak-256 (legacy padding, rate 136, 32-byte digest) of a byte stream. -/
def keccak256 (m : List Nat) : List Nat :=
  let blocks := chunks 136 (keccakPad 136 m)
  let final := blocks.foldl (fun st blk => absorbBlock st ((chunks 8 blk).map bytesToLane))
    (List.replicate 25 0)
  ((final.take 4).map laneToBytes).flatten

/-! ## Strings, UTF-8 and hex -/

/-- UTF-8 encoding of a single code point. -/
def utf8Char (c : Nat) : List Nat :=
  if c < 0x80 then [c]
  else if c < 0x800 then [0xc0 ||| (c >>> 6), 0x80 ||| (c &&& 0x3f)]
  else if c < 0x10000 then
    [0xe0 ||| (c >>> 12), 0x80 ||| ((c >>> 6) &&& 0x3f), 0x80 ||| (c &&& 0x3f)]
  else
    [0xf0 ||| (c >>> 18), 0x80 ||| ((c >>> 12) &&& 0x3f),
     0x80 ||| ((c >>> 6) &&& 0x3f), 0x80 ||| (c &&& 0x3f)]

/-- The bytes of a Go string (UTF-8). -/
def utf8 (s : String) : List Nat :=
  (s.data.map fun c => utf8Char c.toNat).flatten

/-- The lowercase hex digit table of `encoding/hex`. -/
def hexDigitChar (n : Nat) : Char :=
  "0123456789abcdef".toList.getD n '?'

/-- `encoding/hex.EncodeToString`: two lowercase digits per byte. -/
def bytesToHex (bs : List Nat) : String :=
  ⟨(bs.map fun b => [hexDigitChar (b >>> 4), hexDigitChar (b &&& 0x0f)]).flatten⟩

/-- `hexutil.Encode` (go-ethereum): "0x" followed by lowercase hex of the bytes. -/
def hexutilEncode (bs : List Nat) : String :=
  "0x" ++ bytesToHex bs

/-- `encoding/hex.fromHexChar`: value of one hex digit, accepting both cases. -/
def fromHexChar (c : Char) : Option Nat :=
  if '0' ≤ c ∧ c ≤ '9' then some (c.toNat - '0'.toNat)
  else if 'a' ≤ c ∧ c ≤ 'f' then some (c.toNat - 'a'.toNat + 10)
  else if 'A' ≤ c ∧ c ≤ 'F' then some (c.toNat - 'A'.toNat + 10)
  else none

/-- `encoding/hex.DecodeString`: consume digit pairs; `none` models the error
returned on an invalid digit or an odd-length input. -/
def hexDecode : List Char → Option (List Nat)
  | [] => some []
  | [_] => none
  | c1 :: c2 :: rest => do
    let hi ← fromHexChar c1
    let lo ← fromHexChar c2
    let bs ← hexDecode rest
    pure ((hi * 16 + lo) :: bs)

/-- `strings.TrimPrefix` specialized to the "0x" marker, as `AddressToBytes`
calls it. -/
def strip0x (s : String) : String :=
  match s.data with
  | '0' :: 'x' :: rest => ⟨rest⟩
  | _ => s

/-- `AddressToBytes` (hyperliquid/utils): strip an optional "0x" and hex-decode. -/
def AddressToBytes (address : String) : Except String (List Nat) :=
  match hexDecode (strip0x address).data with
  | some bs => .ok bs
  | none => .error "invalid hex address"

/-! ## The wire data model (hyperliquid/utils)

`TIF` and `TPSL` are Go string types; they are modelled as `String`.
The Go `float64` fields never enter the verified statements directly
(IEEE-754 formatting is outside this embedding); where a source function
consumes a float through `FloatToWire`, the float type and the codec are
abstracted as parameters.
-/

/-- `LimitOrderType`. -/
structure LimitOrderType where
  tif : String
deriving DecidableEq

/-- `TriggerOrderType` with the `float64` trigger price abstracted as `α`. -/
structure TriggerOrderType (α : Type) where
  triggerPx : α
  isMarket : Bool
  tpsl : String

/-- `TriggerOrderTypeWire`. -/
structure TriggerOrderTypeWire where
  triggerPx : String
  isMarket : Bool
  tpsl : String
deriving DecidableEq

/-- `OrderType` (input form): optional limit and trigger variants. -/
structure OrderType (α : Type) where
  limit : Option LimitOrderType
  trigger : Option (TriggerOrderType α)

/-- `OrderTypeWire`. -/
structure OrderTypeWire where
  limit : Option LimitOrderType := none
  trigger : Option TriggerOrderTypeWire := none
deriving DecidableEq

/-- `OrderWire`: the wire form of one order. -/
structure OrderWire where
  a : Int
  b : Bool
  p : String
  s : String
  r : Bool
  t : OrderTypeWire
  c : Option String := none
deriving DecidableEq

/-- A Go `interface\x7b\x7d` value as it occurs in the signing pipeline: strings,
integers, booleans, nil, `[]interface\x7b\x7d`, `map[string]interface\x7b\x7d`, and
`[]OrderWire`. A `map` carries its entries as a sequence: Go maps do not
store an order, so the sequence records the iteration order the runtime
happens to produce when the map is serialized; permuting it yields the
same Go map value. -/
inductive GoVal where
  | str (s : String)
  | uint (n : Nat)
  | int (n : Int)
  | bool (b : Bool)
  | nil
  | arr (xs : List GoVal)
  | map (entries : List (String × GoVal))
  | wires (ws : List OrderWire)

/-! ## MessagePack serialization

Model of `msgpack.Marshal` (vmihailenco/msgpack v5, default options) on the
values above: str/array/map headers per the MessagePack spec, `uint64` as
`0xcf` + 8 bytes, `int64` as `0xd3` + 8 bytes (the default encoder does not
use compact int formats), structs encoded as maps keyed by Go field name
(no `msgpack` struct tags are declared in the source) in declaration order,
and map entries in the order the Go runtime iterates them. -/

/-- Big-endian bytes of `n % 2^64`, most significant first. -/
def beBytes8 (n : Nat) : List Nat :=
  [(n / 2 ^ 56) % 256, (n / 2 ^ 48) % 256, (n / 2 ^ 40) % 256, (n / 2 ^ 32) % 256,
   (n / 2 ^ 24) % 256, (n / 2 ^ 16) % 256, (n / 2 ^ 8) % 256, n % 256]

/-- MessagePack str header for a byte length. -/
def mpStrHeader (n : Nat) : List Nat :=
  if n < 32 then [0xa0 ||| n]
  else if n < 256 then [0xd9, n]
  else if n < 65536 then [0xda, (n >>> 8) &&& 0xff, n &&& 0xff]
  else [0xdb, (n >>> 24) &&& 0xff, (n >>> 16) &&& 0xff, (n >>> 8) &&& 0xff, n &&& 0xff]

/-- MessagePack array header. -/
def mpArrayHeader (n : Nat) : List Nat :=
  if n < 16 then [0x90 ||| n]
  else if n < 65536 then [0xdc, (n >>> 8) &&& 0xff, n &&& 0xff]
  else [0xdd, (n >>> 24) &&& 0xff, (n >>> 16) &&& 0xff, (n >>> 8) &&& 0xff, n &&& 0xff]

/-- MessagePack map header. -/
def mpMapHeader (n : Nat) : List Nat :=
  if n < 16 then [0x80 ||| n]
  else if n < 65536 then [0xde, (n >>> 8) &&& 0xff, n &&& 0xff]
  else [0xdf, (n >>> 24) &&& 0xff, (n >>> 16) &&& 0xff, (n >>> 8) &&& 0xff, n &&& 0xff]

/-- MessagePack encoding of a Go string. -/
def mpStr (s : String) : List Nat :=
  mpStrHeader (utf8 s).length ++ utf8 s

/-- MessagePack encoding of a Go bool. -/
def mpBool (b : Bool) : List Nat :=
  [if b then 0xc3 else 0xc2]

/-- MessagePack encoding of a Go int64 (`0xd3`, 8 bytes two's complement). -/
def mpInt64 (n : Int) : List Nat :=
  0xd3 :: beBytes8 (n.emod (2 ^ 64)).toNat

/-- MessagePack encoding of `*string`: nil pointer encodes as `0xc0`. -/
def mpOptStr : Option String → List Nat
  | none => [0xc0]
  | some s => mpStr s

/-- MessagePack encoding of a `LimitOrderType` struct. -/
def mpLimit (l : LimitOrderType) : List Nat :=
  mpMapHeader 1 ++ mpStr "TIF" ++ mpStr l.tif

/-- MessagePack encoding of a `TriggerOrderTypeWire` struct. -/
def mpTrigger (t : TriggerOrderTypeWire) : List Nat :=
  mpMapHeader 3 ++ mpStr "TriggerPx" ++ mpStr t.triggerPx ++
    mpStr "IsMarket" ++ mpBool t.isMarket ++ mpStr "TPSL" ++ mpStr t.tpsl

/-- MessagePack encoding of an `OrderTypeWire` struct (nil pointers as `0xc0`). -/
def mpOrderTypeWire (t : OrderTypeWire) : List Nat :=
  mpMapHeader 2 ++
    mpStr "Limit" ++ (match t.limit with | none => [0xc0] | some l => mpLimit l) ++
    mpStr "Trigger" ++ (match t.trigger with | none => [0xc0] | some tr => mpTrigger tr)

/-- MessagePack encoding of an `OrderWire` struct. -/
def mpOrderWire (w : OrderWire) : List Nat :=
  mpMapHeader 7 ++
    mpStr "A" ++ mpInt64 w.a ++ mpStr "B" ++ mpBool w.b ++
    mpStr "P" ++ mpStr w.p ++ mpStr "S" ++ mpStr w.s ++
    mpStr "R" ++ mpBool w.r ++ mpStr "T" ++ mpOrderTypeWire w.t ++
    mpStr "C" ++ mpOptStr w.c

mutual

/-- `msgpack.Marshal` on a Go value. -/
def msgpackEncode : GoVal → List Nat
  | .str s => mpStr s
  | .uint n => 0xcf :: beBytes8 n
  | .int n => mpInt64 n
  | .bool b => mpBool b
  | .nil => [0xc0]
  | .arr xs => mpArrayHeader xs.length ++ msgpackEncodeList xs
  | .map es => mpMapHeader es.length ++ msgpackEncodeEntries es
  | .wires ws => mpArrayHeader ws.length ++ msgpackEncodeWires ws

/-- Element-wise encoding of a Go slice. -/
def msgpackEncodeList : List GoVal → List Nat
  | [] => []
  | x :: xs => msgpackEncode x ++ msgpackEncodeList xs

/-- Entry-wise encoding of a Go map, in the given iteration order. -/
def msgpackEncodeEntries : List (String × GoVal) → List Nat
  | [] => []
  | (k, v) :: es => mpStr k ++ msgpackEncode v ++ msgpackEncodeEntries es

/-- Element-wise encoding of a `[]OrderWire` slice. -/
def msgpackEncodeWires : List OrderWire → List Nat
  | [] => []
  | w :: ws => mpOrderWire w ++ msgpackEncodeWires ws

end

/-! ## ActionHash -/

/-- The byte-filling loop of `ActionHash`:
`for i := 7; i >= 0; i-- \x7b buf[i] = byte(n & 0xff); n >>= 8 \x7d`.
`i + 1` slots remain to be written; each iteration writes the low byte into
the slot just before the bytes accumulated so far. -/
def beFill : Nat → Nat → List Nat → List Nat
  | 0, _, acc => acc
  | i + 1, n, acc => beFill i (n >>> 8) ((n &&& 0xff) :: acc)

/-- `ActionHash` (hyperliquid/utils): serialize the action with MessagePack,
append the nonce bytes produced by the 8-step loop, the vault-address
marker (with `AddressToBytes` on the attached address), the optional
expiry framing, and Keccak-256 the stream. -/
def ActionHash (action : GoVal) (vaultAddress : Option String) (nonce : Nat)
    (expiresAfter : Option Nat) : Except String (List Nat) := do
  let data := msgpackEncode action
  let data := data ++ beFill 8 nonce []
  let data ← match vaultAddress with
    | none => pure (data ++ [0x00])
    | some v => do
      let vaultBytes ← AddressToBytes v
      pure (data ++ [0x01] ++ vaultBytes)
  let data := match expiresAfter with
    | none => data
    | some expires => data ++ [0x00] ++ beFill 8 expires []
  pure (keccak256 data)

/-- Decode the optional vault address exactly as `ActionHash` does: no
address stays `none`, an attached address must hex-decode. -/
def vaultDecode : Option String → Except String (Option (List Nat))
  | none => .ok none
  | some v => (AddressToBytes v).map some

/-- Modelled from the spec (§4.3 step 3): the vault-address marker over the
decoded address bytes — `0x00` when absent, else `0x01` and the raw bytes. -/
def vaultFraming : Option (List Nat) → List Nat
  | none => [0x00]
  | some bs => 0x01 :: bs

/-- Modelled from the spec (§4.3 step 4): expiry framing — nothing when no
expiry is set, else `0x00` and 8 big-endian expiry bytes. -/
def expiryFraming : Option Nat → List Nat
  | none => []
  | some e => 0x00 :: beBytes8 e

/-- Modelled from the spec (§4.3): serialized action, 8 big-endian nonce
bytes, vault marker, expiry framing, Keccak-256 of the assembled stream. -/
def actionHashSpec (action : GoVal) (vaultBytes : Option (List Nat)) (nonce : Nat)
    (expiry : Option Nat) : List Nat :=
  keccak256 (msgpackEncode action ++ beBytes8 nonce ++ vaultFraming vaultBytes ++
    expiryFraming expiry)

/-! ## Go maps and the order action -/

/-- Go map lookup `m[k]` (first matching entry of the recorded sequence). -/
def goMapGet (m : List (String × GoVal)) (k : String) : Option GoVal :=
  match m.find? fun e => e.1 == k with
  | some e => some e.2
  | none => none

/-- Go map assignment `m[k] = v`: overwrite the existing entry, else add one. -/
def goMapSet (m : List (String × GoVal)) (k : String) (v : GoVal) :
    List (String × GoVal) :=
  match m with
  | [] => [(k, v)]
  | (k', v') :: rest =>
    if k' = k then (k, v) :: rest else (k', v') :: goMapSet rest k v

/-- `OrderWiresToOrderAction` (hyperliquid/utils): the action map with the
fixed "type"/"orders"/"grouping" entries and, only when a builder string is
supplied, a "builder" entry. -/
def OrderWiresToOrderAction (orderWires : List OrderWire) (builder : Option String) :
    List (String × GoVal) :=
  let action := [("type", GoVal.str "order"), ("orders", GoVal.wires orderWires),
    ("grouping", GoVal.str "na")]
  match builder with
  | none => action
  | some b => goMapSet action "builder" (.str b)

/-! ## OrderTypeToWire -/

/-- `OrderTypeToWire` (hyperliquid/utils). The Go function calls
`FloatToWire` on the trigger price; the float and that codec are the
`floatToWire` parameter here. The limit branch is tested first and returns
immediately, the trigger branch only runs when no limit variant is set. -/
def OrderTypeToWire {α : Type} (floatToWire : α → Except String String)
    (orderType : OrderType α) : Except String OrderTypeWire :=
  match orderType.limit with
  | some l => .ok { limit := some l }
  | none =>
    match orderType.trigger with
    | some t =>
      match floatToWire t.triggerPx with
      | .error e => .error e
      | .ok triggerPxWire =>
        .ok { trigger := some
                { isMarket := t.isMarket
                  triggerPx := triggerPxWire
                  tpsl := t.tpsl } }
    | none => .error "invalid order type"

/-! ## strconv.ParseInt with base 0 and bitSize 64

`UserSignedPayload` parses the `signatureChainId` string with
`strconv.ParseInt(chainIDStr, 0, 64)`. The model below follows the Go
standard library: automatic base detection from a "0b"/"0o"/"0x"/"0"
marker, underscore validation, and 64-bit range checking. Go checks
overflow incrementally against a cutoff; with exact `Nat` arithmetic the
equivalent check is whether the accumulated value exceeds the maximum, at
the same digit. -/

/-- Go `lower(c) = c | ('x' - 'X')`. -/
def goLower (c : Char) : Char :=
  Char.ofNat (c.toNat ||| 0x20)

/-- The digit-consuming loop of `strconv.ParseUint` (base-0 call, so
underscores are skipped here and validated afterwards). Errors are the
kinds Go reports: invalid syntax or value out of range. -/
def parseUintLoop (base maxVal : Nat) : List Char → Nat → Except String Nat
  | [], n => .ok n
  | c :: cs, n =>
    if c = '_' then parseUintLoop base maxVal cs n
    else
      let d? : Option Nat :=
        if '0' ≤ c ∧ c ≤ '9' then some (c.toNat - '0'.toNat)
        else if 'a' ≤ goLower c ∧ goLower c ≤ 'z' then some ((goLower c).toNat - 'a'.toNat + 10)
        else none
      match d? with
      | none => .error "invalid syntax"
      | some d =>
        if d ≥ base then .error "invalid syntax"
        else
          let n1 := n * base + d
          if n1 > maxVal then .error "value out of range"
          else parseUintLoop base maxVal cs n1

/-- The `saw`-state walk of `strconv.underscoreOK`: underscores must sit
between a base marker or digit and another digit. -/
def underscoreWalk (hex : Bool) : Char → List Char → Bool
  | saw, [] => saw ≠ '_'
  | saw, c :: cs =>
    if ('0' ≤ c ∧ c ≤ '9') ∨ (hex ∧ 'a' ≤ goLower c ∧ goLower c ≤ 'f') then
      underscoreWalk hex '0' cs
    else if c = '_' then
      if saw ≠ '0' then false else underscoreWalk hex '_' cs
    else if saw = '_' then false
    else underscoreWalk hex '!' cs

/-- `strconv.underscoreOK` over the unstripped argument string. -/
def underscoreOK (l : List Char) : Bool :=
  let l := match l with
    | c :: cs => if c = '-' ∨ c = '+' then cs else c :: cs
    | [] => []
  match l with
  | '0' :: c :: cs =>
    if goLower c = 'b' ∨ goLower c = 'o' ∨ goLower c = 'x' then
      underscoreWalk (goLower c = 'x') '0' cs
    else underscoreWalk false '^' ('0' :: c :: cs)
  | _ => underscoreWalk false '^' l

/-- `strconv.ParseUint(s, 0, 64)`: base detection from the leading marker,
digit loop, underscore validation. -/
def parseUint0 (l : List Char) : Except String Nat :=
  match l with
  | [] => .error "invalid syntax"
  | _ => do
    let (base, digits) := match l with
      | '0' :: c :: c2 :: cs =>
        if goLower c = 'b' then (2, c2 :: cs)
        else if goLower c = 'o' then (8, c2 :: cs)
        else if goLower c = 'x' then (16, c2 :: cs)
        else (8, c :: c2 :: cs)
      | '0' :: rest => (8, rest)
      | _ => (10, l)
    let n ← parseUintLoop base (2 ^ 64 - 1) digits 0
    if digits.contains '_' ∧ ¬underscoreOK l then .error "invalid syntax"
    else .ok n

/-- `strconv.ParseInt(s, 0, 64)`: optional sign, unsigned parse, signed
64-bit range check. -/
def parseInt0 (s : String) : Except String Int :=
  match s.data with
  | [] => .error "invalid syntax"
  | c :: cs => do
    let (neg, digits) :=
      if c = '+' then (false, cs)
      else if c = '-' then (true, cs)
      else (false, c :: cs)
    let un ← parseUint0 digits
    let cutoff : Nat := 2 ^ 63
    if ¬neg ∧ un ≥ cutoff then .error "value out of range"
    else if neg ∧ un > cutoff then .error "value out of range"
    else .ok (if neg then -(un : Int) else (un : Int))

/-! ## Typed data (go-ethereum apitypes) -/

/-- `apitypes.Type`: one declared field of a struct type. -/
structure TDType where
  name : String
  typ : String
deriving DecidableEq

/-- `apitypes.TypedDataDomain` as used here: all four fields always set. -/
structure TypedDataDomain where
  name : String
  version : String
  chainId : Int
  verifyingContract : String
deriving DecidableEq

/-- `apitypes.TypedData`. -/
structure TypedData where
  types : List (String × List TDType)
  primaryType : String
  domain : TypedDataDomain
  message : List (String × GoVal)

/-- The `EIP712Domain` field schema declared by both payload builders. -/
def eip712DomainTypes : List TDType :=
  [⟨"name", "string"⟩, ⟨"version", "string"⟩, ⟨"chainId", "uint256"⟩,
   ⟨"verifyingContract", "address"⟩]

/-- The zero verifying-contract address used by both payload builders. -/
def zeroAddress : String := "0x0000000000000000000000000000000000000000"

/-- `UserSignedPayload` (hyperliquid/utils): require a string
`signatureChainId` in the action, parse it with base-0 `ParseInt`, and
build the fixed-domain typed data whose message is the whole action map. -/
def UserSignedPayload (primaryType : String) (payloadTypes : List TDType)
    (action : List (String × GoVal)) : Except String TypedData :=
  match goMapGet action "signatureChainId" with
  | some (.str chainIDStr) =>
    match parseInt0 chainIDStr with
    | .error e => .error e
    | .ok chainID => .ok
      { types := [("EIP712Domain", eip712DomainTypes), (primaryType, payloadTypes)]
        primaryType := primaryType
        domain :=
          { name := "HyperliquidSignTransaction"
            version := "1"
            chainId := chainID
            verifyingContract := zeroAddress }
        message := action }
  | _ => .error "signatureChainId not found or not string"

/-- `PhantomAgent`. -/
structure PhantomAgent where
  source : String
  connectionID : String
deriving DecidableEq

/-- `ConstructPhantomAgent` (hyperliquid/utils). -/
def ConstructPhantomAgent (hash : List Nat) (isMainnet : Bool) : PhantomAgent :=
  { source := if isMainnet then "a" else "b"
    connectionID := hexutilEncode hash }

/-- `L1Payload` (hyperliquid/utils): the fixed Agent typed data around a
phantom agent. -/
def L1Payload (phantomAgent : PhantomAgent) : TypedData :=
  { types := [("EIP712Domain", eip712DomainTypes),
      ("Agent", [⟨"source", "string"⟩, ⟨"connectionId", "bytes32"⟩])]
    primaryType := "Agent"
    domain :=
      { name := "Exchange"
        version := "1"
        chainId := 1337
        verifyingContract := zeroAddress }
    message := [("source", .str phantomAgent.source),
      ("connectionId", .str phantomAgent.connectionID)] }

/-! ## EIP-712 struct hashing (go-ethereum apitypes dependency)

`SignInner` delegates struct hashing to `apitypes.TypedData.HashStruct`.
The model below implements that algorithm for the atomic field types this
repository declares (string, uint64, uint256, bool, address, bytes32):
`keccak256(typeHash ‖ enc(value_1) ‖ … ‖ enc(value_n))` with the declared
field order, each value encoded to 32 bytes. An unknown type or a
missing/mistyped value is the library's error path (the spec's
`SigningError`). -/

/-- Big-endian 32-byte encoding of `n % 2^256`. -/
def be32Bytes (n : Nat) : List Nat :=
  (List.range 32).map fun i => (n >>> (8 * (31 - i))) &&& 0xff

/-- `encodeType`: the canonical type string of a struct with atomic fields. -/
def encodeTypeStr (name : String) (fields : List TDType) : String :=
  name ++ "(" ++ String.intercalate "," (fields.map fun f => f.typ ++ " " ++ f.name) ++ ")"

/-- Encode one declared field value to its 32-byte EIP-712 form. -/
def encodeValue (typ : String) (v : GoVal) : Except String (List Nat) :=
  match typ with
  | "string" =>
    match v with
    | .str s => .ok (keccak256 (utf8 s))
    | _ => .error "string value expected"
  | "uint64" =>
    match v with
    | .uint n => .ok (be32Bytes n)
    | .int n => if 0 ≤ n then .ok (be32Bytes n.toNat) else .error "negative uint"
    | _ => .error "integer value expected"
  | "uint256" =>
    match v with
    | .uint n => .ok (be32Bytes n)
    | .int n => if 0 ≤ n then .ok (be32Bytes n.toNat) else .error "negative uint"
    | _ => .error "integer value expected"
  | "bool" =>
    match v with
    | .bool b => .ok (be32Bytes (if b then 1 else 0))
    | _ => .error "bool value expected"
  | "address" =>
    match v with
    | .str s =>
      match hexDecode (strip0x s).data with
      | some bs =>
        if bs.length = 20 then .ok (List.replicate 12 0 ++ bs) else .error "bad address"
      | none => .error "bad address"
    | _ => .error "address value expected"
  | "bytes32" =>
    match v with
    | .str s =>
      match hexDecode (strip0x s).data with
      | some bs => if bs.length = 32 then .ok bs else .error "bad bytes32"
      | none => .error "bad bytes32"
    | _ => .error "bytes32 value expected"
  | _ => .error "unrecognized type"

/-- `TypedData.HashStruct`: hash the type string, encode every declared
field's value from the data map, and hash the concatenation. -/
def hashStruct (td : TypedData) (typeName : String) (data : List (String × GoVal)) :
    Except String (List Nat) :=
  match (td.types.find? fun e => e.1 == typeName).map (·.2) with
  | none => .error "type not found"
  | some fields => do
    let encs ← fields.mapM fun f =>
      match goMapGet data f.name with
      | none => Except.error "missing value for field"
      | some v => encodeValue f.typ v
    .ok (keccak256 (keccak256 (utf8 (encodeTypeStr typeName fields)) ++ encs.flatten))

/-- `TypedDataDomain.Map()` restricted to the four fields set here. -/
def domainMap (d : TypedDataDomain) : List (String × GoVal) :=
  [("name", .str d.name), ("version", .str d.version), ("chainId", .int d.chainId),
   ("verifyingContract", .str d.verifyingContract)]

/-! ## Signing -/

/-- `Signature`: r and s as hex strings plus the recovery byte v. -/
structure Signature where
  r : String
  s : String
  v : Nat
deriving DecidableEq

/-- `SignInner` (hyperliquid/utils). The secp256k1 ECDSA backend
(go-ethereum `crypto.Sign`, cgo libsecp256k1; the private key is bound
inside) is the external parameter `sign`, mapping a 32-byte digest to the
65-byte signature `r ‖ s ‖ recoveryId`. `v` is a Go byte, so the `+ 27`
wraps modulo 256. -/
def SignInner (sign : List Nat → Except String (List Nat)) (data : TypedData) :
    Except String Signature := do
  let domainSeparator ← hashStruct data "EIP712Domain" (domainMap data.domain)
  let typedDataHash ← hashStruct data data.primaryType data.message
  let rawData := [0x19, 0x01] ++ domainSeparator ++ typedDataHash
  let hash := keccak256 rawData
  let signature ← sign hash
  .ok { r := hexutilEncode (signature.take 32)
        s := hexutilEncode ((signature.drop 32).take 32)
        v := (signature.getD 64 0 + 27) % 256 }

/-- `SignL1Action` (hyperliquid/utils). -/
def SignL1Action (sign : List Nat → Except String (List Nat)) (action : GoVal)
    (activePool : Option String) (nonce : Nat) (expiresAfter : Option Nat)
    (isMainnet : Bool) : Except String Signature := do
  let hash ← ActionHash action activePool nonce expiresAfter
  let phantomAgent := ConstructPhantomAgent hash isMainnet
  let data := L1Payload phantomAgent
  SignInner sign data

/-- The two map assignments `SignUserSignedAction` performs on the
caller's action map before building the payload. Go maps are reference
values, so this is a mutation of the caller's map; the embedding passes
the state explicitly. -/
def signUserSignedActionMap (action : List (String × GoVal)) (isMainnet : Bool) :
    List (String × GoVal) :=
  let action := goMapSet action "signatureChainId" (.str "0x66eee")
  goMapSet action "hyperliquidChain" (.str (if isMainnet then "Mainnet" else "Testnet"))

/-- `SignUserSignedAction` (hyperliquid/utils): returns the caller's action
map as it is left after the call, together with the signing result. -/
def SignUserSignedAction (sign : List Nat → Except String (List Nat))
    (action : List (String × GoVal)) (payloadTypes : List TDType)
    (primaryType : String) (isMainnet : Bool) :
    List (String × GoVal) × Except String Signature :=
  let action := signUserSignedActionMap action isMainnet
  (action, do
    let data ← UserSignedPayload primaryType payloadTypes action
    SignInner sign data)

/-- Whether an action map carries a `signatureChainId` that
`UserSignedPayload` can use: a string entry that `ParseInt` accepts. -/
def parseableChainId (m : List (String × GoVal)) : Bool :=
  match goMapGet m "signatureChainId" with
  | some (.str cid) => (parseInt0 cid).isOk
  | _ => false

/-- A stand-in for the external ECDSA backend used to witness `SignInner`:
returns a fixed 65-byte signature with recovery id 1. -/
def signW : List Nat → Except String (List Nat) :=
  fun _ => .ok (List.replicate 64 7 ++ [1])

/-- A concrete L1 typed-data payload used to witness `SignInner`: the agent
for the 32-byte hash `[0, 1, …, 31]` on mainnet. -/
def dataW : TypedData :=
  L1Payload (ConstructPhantomAgent ((List.range 32).map fun i => i) true)

/-! ## Helper lemmas -/

theorem and255_eq_mod (n : Nat) : n &&& 255 = n % 256 := by
  have h := Nat.and_pow_two_sub_one_eq_mod n 8
  simpa using h

theorem shiftRight8_eq_div (n : Nat) : n >>> 8 = n / 2 ^ 8 :=
  Nat.shiftRight_eq_div_pow n 8

/-- The 8-step byte loop of `ActionHash` produces exactly the 8 big-endian
bytes of the 64-bit value. -/
theorem beFill_eq_beBytes8 (n : Nat) : beFill 8 n [] = beBytes8 n := by
  show [(((((((n >>> 8) >>> 8) >>> 8) >>> 8) >>> 8) >>> 8) >>> 8) &&& 255,
    ((((((n >>> 8) >>> 8) >>> 8) >>> 8) >>> 8) >>> 8) &&& 255,
    (((((n >>> 8) >>> 8) >>> 8) >>> 8) >>> 8) &&& 255,
    ((((n >>> 8) >>> 8) >>> 8) >>> 8) &&& 255,
    (((n >>> 8) >>> 8) >>> 8) &&& 255,
    ((n >>> 8) >>> 8) &&& 255,
    (n >>> 8) &&& 255,
    n &&& 255] = beBytes8 n
  simp only [and255_eq_mod, shiftRight8_eq_div, Nat.div_div_eq_div_mul, beBytes8]
  norm_num

theorem goMapGet_set_self (m : List (String × GoVal)) (k : String) (v : GoVal) :
    goMapGet (goMapSet m k v) k = some v := by
  induction m with
  | nil => simp [goMapSet, goMapGet, List.find?]
  | cons e rest ih =>
    obtain ⟨k0, v0⟩ := e
    by_cases h : k0 = k
    · subst h
      simp [goMapSet, goMapGet, List.find?]
    · have hb : (k0 == k) = false := by
        simpa using h
      simp only [goMapSet, if_neg h, goMapGet, List.find?, hb]
      exact ih

theorem goMapGet_set_ne (m : List (String × GoVal)) (k k' : String) (v : GoVal)
    (h : k' ≠ k) : goMapGet (goMapSet m k v) k' = goMapGet m k' := by
  have hb : (k == k') = false := by
    simpa using Ne.symm h
  induction m with
  | nil => simp [goMapSet, goMapGet, List.find?, hb]
  | cons e rest ih =>
    obtain ⟨k0, v0⟩ := e
    by_cases h0 : k0 = k
    · subst h0
      simp [goMapSet, goMapGet, List.find?, hb]
    · simp only [goMapSet, if_neg h0, goMapGet, List.find?]
      cases hk : (k0 == k') with
      | true => rfl
      | false => exact ih

/-! ## C1 -/

/-- C1: the action-hash determinism claim fails on the code. The two entry
sequences below are permutations of each other, i.e. two iteration orders
of the very same Go map `\x7b"type":"order","orders":[],"grouping":"na"\x7d`
(exactly the map `OrderWiresToOrderAction` builds for an empty order list);
`msgpack.Marshal` serializes whichever order the runtime yields, and
`ActionHash` then produces different hashes for the two runs. -/
theorem actionHash_iteration_order_dependent :
    ([("type", GoVal.str "order"), ("orders", GoVal.arr []), ("grouping", GoVal.str "na")].Perm
      [("grouping", GoVal.str "na"), ("orders", GoVal.arr []), ("type", GoVal.str "order")]) ∧
    (ActionHash (.map [("type", .str "order"), ("orders", .arr []), ("grouping", .str "na")])
        none 12345 none).toOption ≠
      (ActionHash (.map [("grouping", .str "na"), ("orders", .arr []), ("type", .str "order")])
        none 12345 none).toOption := by
  constructor
  · exact (List.Perm.swap _ _ _).trans
      ((List.Perm.cons _ (List.Perm.swap _ _ _)).trans (List.Perm.swap _ _ _))
  · decide

/-! ## C2 -/

/-- C2: `ActionHash` framing. For every action, nonce, decodable optional
vault address and optional expiry, the hash is the Keccak-256 digest of the
serialized action, followed by the 8 big-endian nonce bytes, the
vault-address marker (`0x00`, or `0x01` and the 20 raw address bytes), and
— only when an expiry is set — `0x00` and the 8 big-endian expiry bytes. -/
theorem actionHash_framing (action : GoVal) (vaultAddress : Option String)
    (vaultBytes : Option (List Nat)) (nonce : Nat) (expiresAfter : Option Nat)
    (hn : nonce < 2 ^ 64)
    (he : ∀ e, expiresAfter = some e → e < 2 ^ 64)
    (hv : vaultDecode vaultAddress = .ok vaultBytes)
    (h20 : ∀ bs, vaultBytes = some bs → bs.length = 20) :
    ActionHash action vaultAddress nonce expiresAfter =
      .ok (actionHashSpec action vaultBytes nonce expiresAfter) := by
  cases vaultAddress with
  | none =>
    have hvb : vaultBytes = none := by
      simpa [vaultDecode] using hv.symm
    subst hvb
    cases expiresAfter <;>
      simp [ActionHash, actionHashSpec, vaultFraming, expiryFraming,
        beFill_eq_beBytes8, List.append_assoc, pure, Except.pure, bind, Except.bind]
  | some v =>
    cases hab : AddressToBytes v with
    | error e =>
      rw [vaultDecode, hab] at hv
      simp [Except.map] at hv
    | ok bs =>
      have hvb : vaultBytes = some bs := by
        rw [vaultDecode, hab] at hv
        simpa [Except.map] using hv.symm
      subst hvb
      cases expiresAfter <;>
        simp [ActionHash, actionHashSpec, hab, vaultFraming, expiryFraming,
          beFill_eq_beBytes8, List.append_assoc, pure, Except.pure, bind, Except.bind]

/-- Witness for C2: a concrete action, nonce 12345, a 20-byte vault address
and expiry 777. -/
theorem actionHash_framing_witness :
    ActionHash (.str "x") (some "0x1234567890123456789012345678901234567890") 12345
        (some 777) =
      .ok (actionHashSpec (.str "x")
        (some [0x12, 0x34, 0x56, 0x78, 0x90, 0x12, 0x34, 0x56, 0x78, 0x90,
          0x12, 0x34, 0x56, 0x78, 0x90, 0x12, 0x34, 0x56, 0x78, 0x90]) 12345 (some 777)) :=
  actionHash_framing (.str "x") (some "0x1234567890123456789012345678901234567890")
    (some [0x12, 0x34, 0x56, 0x78, 0x90, 0x12, 0x34, 0x56, 0x78, 0x90,
      0x12, 0x34, 0x56, 0x78, 0x90, 0x12, 0x34, 0x56, 0x78, 0x90]) 12345 (some 777)
    (by decide)
    (fun e h => by injection h with h; omega)
    (by rfl)
    (fun bs h => by injection h with h; subst h; rfl)

/-! ## C4 -/

/-- C4 counterexample: with BOTH the limit and the trigger variant present,
`OrderTypeToWire` does not fail — the limit branch returns first and the
trigger variant is silently dropped (the claim says this input fails with a
`SchemaError`). -/
theorem orderTypeToWire_both_variants_limit :
    OrderTypeToWire (fun _ : Unit => .ok "100.5")
      { limit := some { tif := "Gtc" }
        trigger := some { triggerPx := (), isMarket := true, tpsl := "tp" } } =
      .ok { limit := some { tif := "Gtc" }, trigger := none } := rfl

/-- C4 amended: `OrderTypeToWire` fails with the `SchemaError` exactly when
neither variant is present; whenever the limit variant is present (even
alongside a trigger variant) it returns the limit wire form; when only the
trigger variant is present it returns the trigger wire form with the
trigger price put through the numeric codec. -/
theorem orderTypeToWire_spec {α : Type} (floatToWire : α → Except String String)
    (orderType : OrderType α) :
    (orderType.limit = none → orderType.trigger = none →
      OrderTypeToWire floatToWire orderType = .error "invalid order type") ∧
    (∀ l, orderType.limit = some l →
      OrderTypeToWire floatToWire orderType = .ok { limit := some l, trigger := none }) ∧
    (∀ t, orderType.limit = none → orderType.trigger = some t →
      OrderTypeToWire floatToWire orderType = (floatToWire t.triggerPx).map
        fun px => (⟨none, some ⟨px, t.isMarket, t.tpsl⟩⟩ : OrderTypeWire)) := by
  obtain ⟨lim, trig⟩ := orderType
  refine ⟨?_, ?_, ?_⟩
  · intro h1 h2
    simp only at h1 h2
    subst h1; subst h2
    rfl
  · intro l hl
    simp only at hl
    subst hl
    rfl
  · intro t h1 h2
    simp only at h1 h2
    subst h1; subst h2
    cases hf : floatToWire t.triggerPx <;> simp [OrderTypeToWire, hf, Except.map]

/-- Witness for C4's amended statement: no variant fails; a lone trigger
variant succeeds through the codec. -/
theorem orderTypeToWire_spec_witness :
    OrderTypeToWire (fun _ : Unit => Except.ok "1")
      { limit := none, trigger := none } = .error "invalid order type" ∧
    OrderTypeToWire (fun _ : Unit => Except.ok "1")
      { limit := none, trigger := some { triggerPx := (), isMarket := false, tpsl := "sl" } } =
      .ok { limit := none
            trigger := some { triggerPx := "1", isMarket := false, tpsl := "sl" } } :=
  ⟨(orderTypeToWire_spec (fun _ : Unit => Except.ok "1")
      { limit := none, trigger := none }).1 rfl rfl,
   (orderTypeToWire_spec (fun _ : Unit => Except.ok "1")
      { limit := none, trigger := some { triggerPx := (), isMarket := false, tpsl := "sl" } }
      ).2.2 { triggerPx := (), isMarket := false, tpsl := "sl" } rfl rfl⟩

/-! ## C10 -/

/-- C10: the action map built by `OrderWiresToOrderAction` always carries
type "order", exactly the given wire list under "orders", the literal "na"
grouping (never "normalTpsl" or "positionTpsl"), and a "builder" entry —
the plain builder string — exactly when a builder was supplied. -/
theorem orderWiresToOrderAction_spec (orderWires : List OrderWire) (builder : Option String) :
    goMapGet (OrderWiresToOrderAction orderWires builder) "type" = some (.str "order") ∧
    goMapGet (OrderWiresToOrderAction orderWires builder) "orders" =
      some (.wires orderWires) ∧
    goMapGet (OrderWiresToOrderAction orderWires builder) "grouping" = some (.str "na") ∧
    goMapGet (OrderWiresToOrderAction orderWires builder) "grouping" ≠
      some (.str "normalTpsl") ∧
    goMapGet (OrderWiresToOrderAction orderWires builder) "grouping" ≠
      some (.str "positionTpsl") ∧
    goMapGet (OrderWiresToOrderAction orderWires builder) "builder" =
      builder.map GoVal.str := by
  cases builder with
  | none =>
    refine ⟨rfl, rfl, rfl, ?_, ?_, rfl⟩ <;>
    · intro hcontra
      have hna : goMapGet (OrderWiresToOrderAction orderWires none) "grouping" =
          some (GoVal.str "na") := rfl
      rw [hna] at hcontra
      injection hcontra with hcontra
      injection hcontra with hcontra
      exact absurd hcontra (by decide)
  | some b =>
    refine ⟨rfl, rfl, rfl, ?_, ?_, rfl⟩ <;>
    · intro hcontra
      have hna : goMapGet (OrderWiresToOrderAction orderWires (some b)) "grouping" =
          some (GoVal.str "na") := rfl
      rw [hna] at hcontra
      injection hcontra with hcontra
      injection hcontra with hcontra
      exact absurd hcontra (by decide)

/-- Witness for C10 at a concrete builder. -/
theorem orderWiresToOrderAction_spec_witness :
    goMapGet (OrderWiresToOrderAction [] (some "b0")) "type" = some (.str "order") ∧
    goMapGet (OrderWiresToOrderAction [] (some "b0")) "builder" = some (.str "b0") :=
  ⟨(orderWiresToOrderAction_spec [] (some "b0")).1,
   (orderWiresToOrderAction_spec [] (some "b0")).2.2.2.2.2⟩

/-! ## C9 -/

/-- C9 counterexample: `SignUserSignedAction` writes into the caller's
action map — starting from the empty map, the map the caller holds after
the call is no longer empty. -/
theorem signUserSignedAction_mutates :
    (SignUserSignedAction signW [] [] "HyperliquidTransaction:UsdSend" true).1 ≠ [] := by
  simp [SignUserSignedAction, signUserSignedActionMap, goMapSet]

/-- C9 amended: `SignL1Action` only reads its inputs (its embedding is a
pure function of them), but `SignUserSignedAction` mutates the caller's
action map: after the call the map holds the two injected entries
`signatureChainId := "0x66eee"` and `hyperliquidChain`, while every other
key is unchanged. -/
theorem signUserSignedAction_mutation_spec (sign : List Nat → Except String (List Nat))
    (action : List (String × GoVal)) (payloadTypes : List TDType) (primaryType : String)
    (isMainnet : Bool) (k : String)
    (h1 : k ≠ "signatureChainId") (h2 : k ≠ "hyperliquidChain") :
    (SignUserSignedAction sign action payloadTypes primaryType isMainnet).1 =
      signUserSignedActionMap action isMainnet ∧
    goMapGet (signUserSignedActionMap action isMainnet) k = goMapGet action k ∧
    goMapGet (signUserSignedActionMap action isMainnet) "signatureChainId" =
      some (.str "0x66eee") ∧
    goMapGet (signUserSignedActionMap action isMainnet) "hyperliquidChain" =
      some (.str (if isMainnet then "Mainnet" else "Testnet")) := by
  refine ⟨rfl, ?_, ?_, ?_⟩
  · unfold signUserSignedActionMap
    rw [goMapGet_set_ne _ _ _ _ h2, goMapGet_set_ne _ _ _ _ h1]
  · unfold signUserSignedActionMap
    rw [goMapGet_set_ne _ _ _ _ (by decide), goMapGet_set_self]
  · unfold signUserSignedActionMap
    rw [goMapGet_set_self]

/-- Witness for C9's amended statement: a USD-transfer-like map keeps its
"destination" entry and gains the "hyperliquidChain" entry. -/
theorem signUserSignedAction_mutation_spec_witness :
    goMapGet (signUserSignedActionMap [("destination", .str "0x0")] false) "destination" =
      goMapGet [("destination", GoVal.str "0x0")] "destination" ∧
    goMapGet (signUserSignedActionMap [("destination", .str "0x0")] false) "hyperliquidChain" =
      some (.str (if false then "Mainnet" else "Testnet")) :=
  ⟨(signUserSignedAction_mutation_spec signW [("destination", .str "0x0")] []
      "HyperliquidTransaction:UsdSend" false "destination" (by decide) (by decide)).2.1,
   (signUserSignedAction_mutation_spec signW [("destination", .str "0x0")] []
      "HyperliquidTransaction:UsdSend" false "destination" (by decide) (by decide)).2.2.2⟩

/-! ## C5 -/

/-- C5: for every user-signed action kind (any primary type and payload
schema), the two fields are injected before hashing — the message map the
payload builder embeds carries `signatureChainId = "0x66eee"` and
`hyperliquidChain` = "Mainnet"/"Testnet" by network —, the typed-data
domain is fixed to name "HyperliquidSignTransaction", version "1", the
chain id 421614 parsed from "0x66eee", and the zero verifying contract;
and any action map without a parseable string `signatureChainId` makes
`UserSignedPayload` fail. -/
theorem userSignedPayload_spec (action : List (String × GoVal)) (payloadTypes : List TDType)
    (primaryType : String) (isMainnet : Bool) :
    goMapGet (signUserSignedActionMap action isMainnet) "signatureChainId" =
      some (.str "0x66eee") ∧
    goMapGet (signUserSignedActionMap action isMainnet) "hyperliquidChain" =
      some (.str (if isMainnet then "Mainnet" else "Testnet")) ∧
    UserSignedPayload primaryType payloadTypes (signUserSignedActionMap action isMainnet) =
      .ok { types := [("EIP712Domain", eip712DomainTypes), (primaryType, payloadTypes)]
            primaryType := primaryType
            domain := ⟨"HyperliquidSignTransaction", "1", 421614, zeroAddress⟩
            message := signUserSignedActionMap action isMainnet } ∧
    (∀ a2 : List (String × GoVal), parseableChainId a2 = false →
      ∃ e, UserSignedPayload primaryType payloadTypes a2 = .error e) := by
  have hsci : goMapGet (signUserSignedActionMap action isMainnet) "signatureChainId" =
      some (.str "0x66eee") := by
    unfold signUserSignedActionMap
    rw [goMapGet_set_ne _ _ _ _ (by decide), goMapGet_set_self]
  refine ⟨hsci, ?_, ?_, ?_⟩
  · unfold signUserSignedActionMap
    rw [goMapGet_set_self]
  · have hp : parseInt0 "0x66eee" = Except.ok 421614 := rfl
    simp [UserSignedPayload, hsci, hp]
  · intro a2 hcond
    rcases hg : goMapGet a2 "signatureChainId" with _ | gv
    · exact ⟨"signatureChainId not found or not string", by simp [UserSignedPayload, hg]⟩
    · cases gv with
      | str cid =>
        simp only [parseableChainId, hg] at hcond
        cases hpc : parseInt0 cid with
        | ok z =>
          rw [hpc] at hcond
          simp [Except.isOk, Except.toBool] at hcond
        | error e => exact ⟨e, by simp [UserSignedPayload, hg, hpc]⟩
      | uint n =>
        exact ⟨"signatureChainId not found or not string", by simp [UserSignedPayload, hg]⟩
      | int n =>
        exact ⟨"signatureChainId not found or not string", by simp [UserSignedPayload, hg]⟩
      | bool b =>
        exact ⟨"signatureChainId not found or not string", by simp [UserSignedPayload, hg]⟩
      | nil =>
        exact ⟨"signatureChainId not found or not string", by simp [UserSignedPayload, hg]⟩
      | arr xs =>
        exact ⟨"signatureChainId not found or not string", by simp [UserSignedPayload, hg]⟩
      | map es =>
        exact ⟨"signatureChainId not found or not string", by simp [UserSignedPayload, hg]⟩
      | wires ws =>
        exact ⟨"signatureChainId not found or not string", by simp [UserSignedPayload, hg]⟩

/-- Witness for C5: a concrete injected map, and an action map with no
`signatureChainId` at all failing. -/
theorem userSignedPayload_spec_witness :
    goMapGet (signUserSignedActionMap [("amount", .str "1")] false) "signatureChainId" =
      some (.str "0x66eee") ∧
    (∃ e, UserSignedPayload "HyperliquidTransaction:UsdSend"
      [⟨"hyperliquidChain", "string"⟩] [] = .error e) :=
  ⟨(userSignedPayload_spec [("amount", .str "1")] [⟨"hyperliquidChain", "string"⟩]
      "HyperliquidTransaction:UsdSend" false).1,
   (userSignedPayload_spec [("amount", .str "1")] [⟨"hyperliquidChain", "string"⟩]
      "HyperliquidTransaction:UsdSend" false).2.2.2 [] rfl⟩

/-! ## C7 -/

theorem fromHexChar_hexDigitChar : ∀ n < 16, fromHexChar (hexDigitChar n) = some n := by
  decide

theorem and15_eq_mod (n : Nat) : n &&& 15 = n % 16 := by
  have h := Nat.and_pow_two_sub_one_eq_mod n 4
  simpa using h

/-- Lowercase hex encoding round-trips: decoding the encoded digits gives
back exactly the input bytes. -/
theorem hexDecode_bytesToHex (bs : List Nat) (h : ∀ b ∈ bs, b < 256) :
    hexDecode (bytesToHex bs).data = some bs := by
  induction bs with
  | nil => rfl
  | cons b rest ih =>
    have hb : b < 256 := h b (by simp)
    have h4 : b >>> 4 < 16 := by
      rw [Nat.shiftRight_eq_div_pow]; omega
    have h15 : b &&& 15 < 16 := by
      rw [and15_eq_mod]; omega
    have hv : (b >>> 4) * 16 + (b &&& 15) = b := by
      rw [Nat.shiftRight_eq_div_pow, and15_eq_mod]; omega
    have ih2 := ih fun x hx => h x (by simp [hx])
    show hexDecode (hexDigitChar (b >>> 4) :: hexDigitChar (b &&& 15) ::
      (bytesToHex rest).data) = some (b :: rest)
    simp [hexDecode, fromHexChar_hexDigitChar _ h4, fromHexChar_hexDigitChar _ h15,
      ih2, Option.bind, hv]

/-- C7: the phantom agent tags the network with "a"/"b", its connectionId
is the 0x-prefixed lowercase hex of exactly the input hash bytes (the hex
round-trips to the same byte list), and `L1Payload` wraps it in the fixed
Exchange/1/1337/zero-address domain with primary type Agent over
`(source: string, connectionId: bytes32)`. -/
theorem constructPhantomAgent_l1Payload_spec (hash : List Nat) (isMainnet : Bool)
    (h : ∀ b ∈ hash, b < 256) :
    (ConstructPhantomAgent hash isMainnet).source = (if isMainnet then "a" else "b") ∧
    (ConstructPhantomAgent hash isMainnet).connectionID = "0x" ++ bytesToHex hash ∧
    hexDecode (bytesToHex hash).data = some hash ∧
    L1Payload (ConstructPhantomAgent hash isMainnet) =
      { types := [("EIP712Domain", eip712DomainTypes),
          ("Agent", [⟨"source", "string"⟩, ⟨"connectionId", "bytes32"⟩])]
        primaryType := "Agent"
        domain := ⟨"Exchange", "1", 1337, zeroAddress⟩
        message := [("source", .str (if isMainnet then "a" else "b")),
          ("connectionId", .str ("0x" ++ bytesToHex hash))] } :=
  ⟨rfl, rfl, hexDecode_bytesToHex hash h, by cases isMainnet <;> rfl⟩

/-- Witness for C7: the fixed 4-byte hash of the repository's own test, on
both networks. -/
theorem constructPhantomAgent_l1Payload_spec_witness :
    (ConstructPhantomAgent [1, 2, 3, 4] true).source = "a" ∧
    (ConstructPhantomAgent [1, 2, 3, 4] false).source = "b" ∧
    hexDecode (bytesToHex [1, 2, 3, 4]).data = some [1, 2, 3, 4] :=
  ⟨(constructPhantomAgent_l1Payload_spec [1, 2, 3, 4] true (by decide)).1,
   (constructPhantomAgent_l1Payload_spec [1, 2, 3, 4] false (by decide)).1,
   (constructPhantomAgent_l1Payload_spec [1, 2, 3, 4] true (by decide)).2.2.1⟩

/-! ## C6 -/

theorem bytesToHex_data_length (bs : List Nat) :
    (bytesToHex bs).data.length = 2 * bs.length := by
  induction bs with
  | nil => rfl
  | cons b rest ih =>
    show ([hexDigitChar (b >>> 4), hexDigitChar (b &&& 0x0f)] ++
      (bytesToHex rest).data).length = _
    rw [List.length_append, ih]
    simp [List.length_cons]
    omega

theorem hexutilEncode_length (bs : List Nat) :
    (hexutilEncode bs).length = 2 + 2 * bs.length := by
  have h2 : (bytesToHex bs).length = 2 * bs.length := bytesToHex_data_length bs
  have h0 : "0x".length = 2 := rfl
  show ("0x" ++ bytesToHex bs).length = _
  rw [String.length_append, h2, h0]

/-- C6: `SignInner` signs exactly the digest
`Keccak256(0x19 0x01 ‖ domainHash ‖ messageHash)`, returns r and s as the
hex strings of the two 32-byte halves (each "0x" plus 64 digits), and sets
`v = recoveryId + 27`, which lies in \x7b27, 28\x7d. -/
theorem signInner_spec (sign : List Nat → Except String (List Nat)) (data : TypedData)
    (dh mh sig : List Nat)
    (h1 : hashStruct data "EIP712Domain" (domainMap data.domain) = .ok dh)
    (h2 : hashStruct data data.primaryType data.message = .ok mh)
    (h3 : sign (keccak256 ([0x19, 0x01] ++ dh ++ mh)) = .ok sig)
    (h4 : sig.length = 65)
    (h5 : sig.getD 64 0 ≤ 1) :
    SignInner sign data = .ok
      { r := hexutilEncode (sig.take 32)
        s := hexutilEncode ((sig.drop 32).take 32)
        v := sig.getD 64 0 + 27 } ∧
    (sig.getD 64 0 + 27 = 27 ∨ sig.getD 64 0 + 27 = 28) ∧
    (hexutilEncode (sig.take 32)).length = 66 ∧
    (hexutilEncode ((sig.drop 32).take 32)).length = 66 := by
  have hmod : (sig.getD 64 0 + 27) % 256 = sig.getD 64 0 + 27 :=
    Nat.mod_eq_of_lt (by omega)
  have h3' := h3
  simp only [List.append_assoc, List.cons_append, List.nil_append] at h3'
  refine ⟨?_, by omega, ?_, ?_⟩
  · have h5' : sig[64]?.getD 0 ≤ 1 := by simpa [List.getD] using h5
    simp [SignInner, h1, h2, h3, h3', bind, Except.bind]
    omega
  · rw [hexutilEncode_length, List.length_take, h4]
    omega
  · rw [hexutilEncode_length, List.length_take, List.length_drop, h4]
    omega

/-- Witness for C6: the concrete L1 agent payload `dataW` signed with the
stand-in backend `signW`. -/
theorem signInner_spec_witness :
    SignInner signW dataW = .ok
      { r := hexutilEncode (List.replicate 32 7)
        s := hexutilEncode (List.replicate 32 7)
        v := 28 } :=
  (signInner_spec signW dataW _ _ (List.replicate 64 7 ++ [1])
    rfl rfl rfl rfl (by decide)).1

end HL
